import Mathlib

/-!
Shallow embedding of `src/pySODM/optimization/mcmc.py` and proofs about it.

The file embeds the three functions of the module:
  * the convergence check and `old_tau` bookkeeping inside `run_EnsembleSampler`
    (lines 96, 132-141),
  * the settings-dictionary handling of `run_EnsembleSampler` (lines 16, 81),
    including the Python semantics of its mutable default argument,
  * `perturbate_theta` (lines 145-212),
  * `emcee_sampler_to_dictionary` (lines 214-281).

Modelling conventions:
  * Python floats are idealised as exact rationals (`ℚ`); the only places where
    IEEE special values matter (the `np.inf` sentinel for `old_tau`, and
    division by an exactly-zero mean) are modelled explicitly and documented at
    the definition.
  * `np.linalg.cond` (a numerical computation on a real matrix) is abstracted
    as a Boolean oracle `condInf : List (List ℚ) → Bool` answering "is the
    condition number infinite"; `np.random.uniform` draws are abstracted as a
    stream `draws : ℕ → List (List ℚ)` giving the U(-1,1) matrix of each
    attempt.  The control flow around them is translated verbatim.
  * Python `while` loops are given an explicit fuel argument; a result of
    `none` means the loop did not terminate within the given number of
    iterations (so `∀ fuel, ... = none` is non-termination).
-/

namespace PySODM

/-- `np.mean` of a vector, idealised over `ℚ` (for the empty vector Lean's
`0 / 0 = 0` convention is used; real `tau` vectors are never empty since the
sampler has at least one dimension). -/
def meanQ (l : List ℚ) : ℚ := l.sum / (l.length : ℚ)

/-- `np.max` of a vector (totalised with 0 on the empty vector, which
`np.max` rejects; real `tau` vectors are never empty). -/
def maxQ : List ℚ → ℚ
  | [] => 0
  | x :: xs => xs.foldl max x

/-- Line 138 of `run_EnsembleSampler`:
`np.abs(np.mean(old_tau) - np.mean(tau)) / np.mean(tau) < thres_frac`
with `thres_frac = 0.03`.  `old_tau` is `none` for the `np.inf` sentinel set
at line 96, `some o` once a tau vector has been stored (line 141).
IEEE semantics made explicit:
  * `old_tau = inf`: the numerator is `+inf`; `inf/m` is `+inf` for `m > 0`,
    `+inf` for `m = 0.0` (numpy division of a positive float by zero), and
    `-inf` for `m < 0`; only `-inf < 0.03` is true, so the comparison holds
    exactly when `mean(tau) < 0`.
  * finite `old_tau` with `mean(tau) = 0.0`: the quotient is `+inf` (positive
    numerator) or `nan` (zero numerator) and both make the `<` comparison
    false, hence the explicit `false` branch. -/
def driftOK : Option (List ℚ) → List ℚ → Bool
  | none, tau => decide (meanQ tau < 0)
  | some o, tau =>
      let m := meanQ tau
      if m = 0 then false
      else decide (|meanQ o - m| / m < 3 / 100)

/-- Lines 132-138 of `run_EnsembleSampler`: the convergence decision taken at a
diagnostic check.  `np.all` over a scalar comparison is the identity and `&=`
on Booleans is conjunction, so the check is
`(np.max(tau) * 50.0 < iteration) && driftOK old tau`. -/
def convergedCheck (tau : List ℚ) (old : Option (List ℚ)) (iteration : ℕ) : Bool :=
  decide (maxQ tau * 50 < (iteration : ℚ)) && driftOK old tau

/-- Lines 139-141 of `run_EnsembleSampler`, iterated over the diagnostic
checks of a session: each list entry is the `(tau, sampler.iteration)` pair
seen at one check; the state is the current `old_tau` (`none` = the `np.inf`
sentinel of line 96).  On `converged` the loop breaks at once (line 140),
otherwise `old_tau = tau` (line 141) and the loop continues.  The result is
the final `old_tau` together with whether the loop stopped by convergence. -/
def runChecks : Option (List ℚ) → List (List ℚ × ℕ) → Option (List ℚ) × Bool
  | old, [] => (old, false)
  | old, (tau, iter) :: rest =>
    if convergedCheck tau old iter then (old, true)
    else runChecks (some tau) rest

/-- Spec-side form of the first convergence condition, from the spec's words:
`max(tau) * 50.0 < current_iteration`. -/
def lengthGate (tau : List ℚ) (iteration : ℕ) : Prop :=
  maxQ tau * 50 < (iteration : ℚ)

/-- Spec-side form of the second convergence condition, from the spec's words:
`abs(mean(old_tau) - mean(tau)) / mean(tau) < 0.03`, read with the float
semantics the spec's expression carries (a zero denominator yields `inf`/`nan`
and the comparison is false, encoded as the first conjunct). -/
def driftGate (old tau : List ℚ) : Prop :=
  meanQ tau ≠ 0 ∧ |meanQ old - meanQ tau| / meanQ tau < 3 / 100

instance (tau : List ℚ) (iteration : ℕ) : Decidable (lengthGate tau iteration) := by
  unfold lengthGate; infer_instance

instance (old tau : List ℚ) : Decidable (driftGate old tau) := by
  unfold driftGate; infer_instance

/-- C3: with a stored previous estimate `old`, the check at a diagnostic
period reports converged iff both `max(tau)*50 < iteration` and the relative
drift of the mean below 0.03 hold; the outcome is the value of the pure
function `convergedCheck` of `(tau, old, iteration)` alone, hence
deterministic. -/
theorem convergence_check_iff_spec (tau old : List ℚ) (iteration : ℕ) :
    convergedCheck tau (some old) iteration = true ↔
      lengthGate tau iteration ∧ driftGate old tau := by
  unfold convergedCheck driftOK lengthGate driftGate
  by_cases h : meanQ tau = 0 <;> simp [h]

/-- C4: on the first diagnostic check `old_tau` is the `np.inf` sentinel, so
for every finite positive tau vector and every iteration count the check
reports not converged. -/
theorem first_check_never_converged (tau : List ℚ) (iteration : ℕ)
    (hpos : ∀ x ∈ tau, 0 < x) :
    convergedCheck tau none iteration = false := by
  have hsum : 0 ≤ tau.sum := List.sum_nonneg fun x hx => le_of_lt (hpos x hx)
  have hmean : 0 ≤ meanQ tau := by
    unfold meanQ
    exact div_nonneg hsum (by positivity)
  unfold convergedCheck driftOK
  simp [not_lt.mpr hmean]

/-- C4 witness: a concrete positive tau vector and iteration count. -/
theorem first_check_never_converged_witness :
    (∀ x ∈ ([1] : List ℚ), 0 < x) ∧ convergedCheck [1] none 1000 = false :=
  ⟨by norm_num, first_check_never_converged [1] 1000 (by norm_num)⟩

/-- C10: at each diagnostic check, if the check reports converged the loop
stops immediately and `old_tau` is left unchanged; otherwise `old_tau` is
overwritten with the current tau and the loop continues.  Consequently, when a
session never reports convergence, the final `old_tau` is the tau vector of
the most recent check (or the initial sentinel when no check ran). -/
theorem old_tau_updated_iff_not_converged (old : Option (List ℚ)) (tau : List ℚ)
    (iter : ℕ) (rest checks : List (List ℚ × ℕ)) :
    (runChecks old ((tau, iter) :: rest) =
      if convergedCheck tau old iter then (old, true) else runChecks (some tau) rest)
    ∧ ((runChecks old checks).2 = false →
        (runChecks old checks).1 = (checks.map fun c => some c.1).getLastD old) := by
  constructor
  · rfl
  · induction checks generalizing old with
    | nil => intro _; rfl
    | cons c cs ih =>
      intro h
      obtain ⟨ctau, citer⟩ := c
      by_cases hc : convergedCheck ctau old citer
      · exfalso
        simp [runChecks, hc] at h
      · simp only [runChecks, hc, if_false, List.map_cons, List.getLastD_cons] at *
        exact ih (some ctau) h

/-- C10 witness: a concrete non-converging run in which `old_tau` ends as the
tau of the last (non-converged) check. -/
theorem old_tau_updated_iff_not_converged_witness :
    (runChecks none [([1], 0)]).2 = false ∧
      (runChecks none [([1], 0)]).1 = ([([1], 0)].map fun c => some c.1).getLastD none := by
  have hc : convergedCheck [1] none 0 = false := by
    simp only [convergedCheck, driftOK, maxQ, meanQ]
    norm_num
  have h2 : (runChecks none [([1], 0)]).2 = false := by
    simp [runChecks, hc]
  exact ⟨h2, (old_tau_updated_iff_not_converged none [1] 0 [] [([1], 0)]).2 h2⟩

/-! Embedding of `perturbate_theta` (lines 145-212).  The random draw of each
loop iteration (`np.random.uniform(low=-1, high=1, size=(nwalkers, ndim))`) is
abstracted as `draws k`, the U matrix of attempt `k`; `np.linalg.cond` is
abstracted as the oracle `condInf`, answering whether the condition number of
a position matrix is infinite. -/

/-- Outcome of a call to `perturbate_theta`: one of the two `raise Exception`
sites (lines 184, 186, 208) or the returned `(ndim, nwalkers, pos)` triple. -/
inductive PerturbOutcome where
  | validationError (msg : String)
  | degenerateError
  | success (ndim nwalkers : ℕ) (pos : List (List ℚ))
deriving DecidableEq

/-- Line 201: `pos = theta + theta*pert*np.random.uniform(...)`, numpy
broadcasting of the row vectors `theta` and `pert` over the rows of the
`(nwalkers, ndim)` uniform draw `u`. -/
def perturbPos (theta pert : List ℚ) (u : List (List ℚ)) : List (List ℚ) :=
  u.map fun row => (theta.zip (pert.zip row)).map fun p => p.1 + p.1 * p.2.1 * p.2.2

/-- Line 200: `np.clip(theta, lower_bounds, upper_bounds)` elementwise;
`np.clip(x, lo, hi)` is `min (max x lo) hi`. -/
def clipList (theta lower upper : List ℚ) : List ℚ :=
  (theta.zip (lower.zip upper)).map fun p => min (max p.1 p.2.1) p.2.2

/-- Lines 196-208: the `while cond_number == np.inf` loop.  State: the current
`theta` (rebound by the clip at line 200), the attempt index `k`, the
`retry_counter`, and the remaining fuel (`none` = the loop has not terminated
within `fuel` iterations).  The branch structure is verbatim from the source:
the increment of `retry_counter` at line 206 sits under
`cond_number == np.inf and verbose and retry_counter < 20` (line 203), the
`raise` of line 208 under the `elif retry_counter >= 20` (line 207), and
otherwise the loop condition decides between another attempt and returning. -/
def perturbLoop (pert lower upper : List ℚ) (bTruthy verbose : Bool)
    (ndim nwalkers : ℕ) (condInf : List (List ℚ) → Bool)
    (draws : ℕ → List (List ℚ)) :
    List ℚ → ℕ → ℕ → ℕ → Option PerturbOutcome
  | _, _, _, 0 => none
  | theta, k, retry, fuel + 1 =>
    let theta1 := if bTruthy && decide (retry = 0) then clipList theta lower upper else theta
    let pos := perturbPos theta1 pert (draws k)
    if condInf pos && verbose && decide (retry < 20) then
      perturbLoop pert lower upper bTruthy verbose ndim nwalkers condInf draws
        theta1 (k + 1) (retry + 1) fuel
    else if 20 ≤ retry then some .degenerateError
    else if condInf pos then
      perturbLoop pert lower upper bTruthy verbose ndim nwalkers condInf draws
        theta1 (k + 1) retry fuel
    else some (.success ndim nwalkers pos)

/-- Lines 182-212 of `perturbate_theta`.  Python truthiness of `bounds`
(`if bounds and ...` at lines 185, 190, 199) is `bounds` being neither `None`
nor the empty sequence, modelled by `bTruthy`.  The clipping windows of lines
191-192 are `bounds[i][0]/(1-pert[i])` and `bounds[i][1]/(1+pert[i])`. -/
def perturbate_theta (theta pert : List ℚ) (multiplier : ℕ)
    (bounds : Option (List (ℚ × ℚ))) (verbose : Bool)
    (condInf : List (List ℚ) → Bool) (draws : ℕ → List (List ℚ))
    (fuel : ℕ) : Option PerturbOutcome :=
  if theta.length ≠ pert.length then
    some (.validationError
      "The parameter value array theta must have the same length as the perturbation value array pert.")
  else
    let bTruthy := match bounds with | none => false | some l => !l.isEmpty
    let blist := bounds.getD []
    if bTruthy && decide (blist.length ≠ theta.length) then
      some (.validationError
        "If bounds is not None, it must contain a tuple for every parameter in theta")
    else
      let lower := (blist.zip pert).map fun p => p.1.1 / (1 - p.2)
      let upper := (blist.zip pert).map fun p => p.1.2 / (1 + p.2)
      let ndim := theta.length
      let nwalkers := ndim * multiplier
      perturbLoop pert lower upper bTruthy verbose ndim nwalkers condInf draws theta 0 0 fuel

/-- Helper: with falsy bounds the loop never terminates when every draw is
degenerate and `verbose` is false, because the `retry_counter` increment is
guarded by `verbose`. -/
lemma perturbLoop_no_verbose_stuck (theta pert lower upper : List ℚ)
    (ndim nwalkers : ℕ) (condInf : List (List ℚ) → Bool)
    (draws : ℕ → List (List ℚ))
    (hdeg : ∀ u, condInf (perturbPos theta pert u) = true) :
    ∀ fuel k, perturbLoop pert lower upper false false ndim nwalkers condInf draws
      theta k 0 fuel = none := by
  intro fuel
  induction fuel with
  | zero => intro k; rfl
  | succ n ih =>
    intro k
    simp only [perturbLoop, Bool.false_and, Bool.and_false, Bool.false_eq_true, if_false,
      hdeg (draws k)]
    simpa using ih (k + 1)

/-- Helper: with falsy bounds, `verbose` true and every draw degenerate, the
loop raises at line 208 once `retry_counter` reaches 20, i.e. on the
`(21 - retry)`-th remaining iteration. -/
lemma perturbLoop_verbose_raises (theta pert lower upper : List ℚ)
    (ndim nwalkers : ℕ) (condInf : List (List ℚ) → Bool)
    (draws : ℕ → List (List ℚ))
    (hdeg : ∀ u, condInf (perturbPos theta pert u) = true) :
    ∀ fuel retry k, retry + fuel = 21 → retry ≤ 20 →
      perturbLoop pert lower upper false true ndim nwalkers condInf draws
        theta k retry fuel = some .degenerateError := by
  intro fuel
  induction fuel with
  | zero => intro retry k h1 h2; omega
  | succ n ih =>
    intro retry k h1 h2
    have hθ : (if (false && decide (retry = 0)) = true
        then clipList theta lower upper else theta) = theta := by simp
    by_cases hr : retry < 20
    · have hcond : (condInf (perturbPos theta pert (draws k)) && true
          && decide (retry < 20)) = true := by
        simp [hdeg (draws k), hr]
      simp only [perturbLoop, hθ, hcond, if_true]
      exact ih (retry + 1) (k + 1) (by omega) (by omega)
    · have hr20 : retry = 20 := by omega
      subst hr20
      simp [perturbLoop, hθ, hdeg (draws k)]

/-- C1: the retry budget of `perturbate_theta`.  Whenever every sampled
position matrix is degenerate (infinite condition number) and the call passes
validation with `bounds` omitted, the code never silently returns a matrix,
but the abort-after-20-retries behaviour only happens when `verbose` is
truthy: with the default falsy `verbose` the `retry_counter` increment
(guarded by `verbose` at line 203) never fires and the `while` loop runs
forever (`none` for every fuel). -/
theorem perturbate_retry_budget_bug (theta pert : List ℚ) (multiplier : ℕ)
    (condInf : List (List ℚ) → Bool) (draws : ℕ → List (List ℚ))
    (hlen : theta.length = pert.length)
    (hdeg : ∀ u, condInf (perturbPos theta pert u) = true) :
    (∀ fuel, perturbate_theta theta pert multiplier none false condInf draws fuel = none)
    ∧ perturbate_theta theta pert multiplier none true condInf draws 21 =
        some .degenerateError := by
  constructor
  · intro fuel
    simp only [perturbate_theta, hlen, ne_eq, not_true_eq_false, if_false, Option.getD,
      Bool.false_and]
    simp only [Bool.false_eq_true, if_false]
    exact perturbLoop_no_verbose_stuck theta pert _ _ _ _ condInf draws hdeg fuel 0
  · simp only [perturbate_theta, hlen, ne_eq, not_true_eq_false, if_false, Option.getD,
      Bool.false_and]
    simp only [Bool.false_eq_true, if_false]
    exact perturbLoop_verbose_raises theta pert _ _ _ _ condInf draws hdeg 21 0 0 rfl
      (by omega)

/-- Oracle instance used by the C1 witness: the all-zero position matrix has
infinite condition number (`np.linalg.cond` of the zero matrix is `inf`). -/
def zeroOracle (m : List (List ℚ)) : Bool :=
  m.all fun r => r.all fun x => decide (x = 0)

/-- C1 witness: at the failing input `theta = [0, 0]`, `pert = [0.1, 0.1]`,
`bounds = None`, every perturbed position matrix is the zero matrix, hence
degenerate: with the default falsy `verbose` the call never returns (here
shown for fuel 5), while with `verbose` truthy it raises after the retry
budget. -/
theorem perturbate_retry_budget_bug_witness :
    perturbate_theta [0, 0] [1/10, 1/10] 2 none false zeroOracle
        (fun _ => [[1, 1], [1, 1], [1, 1], [1, 1]]) 5 = none
    ∧ perturbate_theta [0, 0] [1/10, 1/10] 2 none true zeroOracle
        (fun _ => [[1, 1], [1, 1], [1, 1], [1, 1]]) 21 = some .degenerateError := by
  have hdeg : ∀ u, zeroOracle (perturbPos [0, 0] [1/10, 1/10] u) = true := by
    intro u
    simp only [zeroOracle, perturbPos, List.all_map, List.all_eq_true, Function.comp_apply]
    intro row hrow x hx
    obtain ⟨y, hy, hyx⟩ := List.mem_map.mp hx
    have h1 : y.1 = 0 := by
      have hm := (List.of_mem_zip hy).1
      simp only [List.mem_cons, List.mem_singleton, List.not_mem_nil, or_false] at hm
      rcases hm with h | h <;> exact h
    rw [← hyx]
    simp [h1]
  have h := perturbate_retry_budget_bug [0, 0] [1/10, 1/10] 2 zeroOracle
    (fun _ => [[1, 1], [1, 1], [1, 1], [1, 1]]) rfl hdeg
  exact ⟨h.1 5, h.2⟩

/-- Helper: with falsy bounds (so line 200's clip never changes `theta`), a
successful exit of the perturbation loop carries `ndim`, `nwalkers`, and a
position matrix that is the perturbation of `theta` by one of the draws and
that the condition-number oracle accepted as finite. -/
lemma perturbLoop_success (pert lower upper : List ℚ) (verbose : Bool)
    (ndim nwalkers : ℕ) (condInf : List (List ℚ) → Bool)
    (draws : ℕ → List (List ℚ)) :
    ∀ fuel theta k retry nd nw pos,
      perturbLoop pert lower upper false verbose ndim nwalkers condInf draws
        theta k retry fuel = some (.success nd nw pos) →
      nd = ndim ∧ nw = nwalkers ∧ condInf pos = false ∧
        ∃ j, pos = perturbPos theta pert (draws j) := by
  intro fuel
  induction fuel with
  | zero => intro theta k retry nd nw pos h; exact absurd h (by simp [perturbLoop])
  | succ n ih =>
    intro theta k retry nd nw pos h
    have hθ : (if (false && decide (retry = 0)) = true
        then clipList theta lower upper else theta) = theta := by simp
    simp only [perturbLoop, hθ] at h
    by_cases hc1 : (condInf (perturbPos theta pert (draws k)) && verbose
        && decide (retry < 20)) = true
    · rw [if_pos hc1] at h
      exact ih theta (k + 1) (retry + 1) nd nw pos h
    · rw [if_neg hc1] at h
      by_cases hr : 20 ≤ retry
      · rw [if_pos hr] at h
        exact absurd h (by simp)
      · rw [if_neg hr] at h
        by_cases hci : condInf (perturbPos theta pert (draws k)) = true
        · rw [if_pos hci] at h
          exact ih theta (k + 1) retry nd nw pos h
        · rw [if_neg hci] at h
          simp only [Option.some.injEq, PerturbOutcome.success.injEq] at h
          obtain ⟨hnd, hnw, hpos⟩ := h
          refine ⟨hnd.symm, hnw.symm, ?_, k, hpos.symm⟩
          rw [← hpos]
          exact Bool.not_eq_true _ |>.mp hci

/-- C8: whenever `perturbate_theta` succeeds on a valid input with `bounds`
omitted (the claim's precondition that no `theta` entry is zero is carried
along), the returned triple satisfies `ndim = D`, `nwalkers = multiplier * D`,
the position matrix has shape `(multiplier * D, D)`, it is
`theta + theta * pert * U(-1,1)` elementwise for the accepted draw, and its
condition number is finite (the loop only exits when the condition-number
test passes). -/
theorem perturbate_success_contract (theta pert : List ℚ) (multiplier : ℕ)
    (verbose : Bool) (condInf : List (List ℚ) → Bool)
    (draws : ℕ → List (List ℚ)) (fuel nd nw : ℕ) (pos : List (List ℚ))
    (hlen : theta.length = pert.length)
    (hzero : ∀ x ∈ theta, x ≠ 0)
    (hdraw : ∀ k, (draws k).length = multiplier * theta.length ∧
      ∀ row ∈ draws k, row.length = theta.length)
    (hres : perturbate_theta theta pert multiplier none verbose condInf draws fuel
      = some (.success nd nw pos)) :
    nd = theta.length ∧ nw = multiplier * theta.length ∧
      pos.length = multiplier * theta.length ∧
      (∀ row ∈ pos, row.length = theta.length) ∧
      condInf pos = false ∧ ∃ k, pos = perturbPos theta pert (draws k) := by
  have hceq : (theta.length ≠ pert.length) = False := by simp [hlen]
  simp only [perturbate_theta, hceq, if_false, Option.getD, Bool.false_and] at hres
  simp only [Bool.false_eq_true, if_false] at hres
  obtain ⟨hnd, hnw, hci, j, hpos⟩ :=
    perturbLoop_success pert _ _ verbose _ _ condInf draws fuel theta 0 0 nd nw pos hres
  refine ⟨hnd, by rw [hnw, Nat.mul_comm], ?_, ?_, hci, j, hpos⟩
  · rw [hpos]
    simp only [perturbPos, List.length_map]
    exact (hdraw j).1
  · intro row hrow
    rw [hpos] at hrow
    obtain ⟨urow, hurow, hf⟩ := List.mem_map.mp hrow
    rw [← hf]
    simp only [List.length_map, List.length_zip]
    rw [(hdraw j).2 urow hurow, ← hlen]
    omega

/-- Condition-number oracle used by the C8 witness: every matrix reported
finite. -/
def finiteOracle : List (List ℚ) → Bool := fun _ => false

/-- Draw stream used by the C8 witness: the zero matrix of shape (4, 2) at
every attempt. -/
def zeroDraws : ℕ → List (List ℚ) := fun _ => [[0, 0], [0, 0], [0, 0], [0, 0]]

/-- C8 witness: a concrete valid call with `bounds` omitted whose first draw
is accepted. -/
theorem perturbate_success_contract_witness :
    2 = ([1, 2] : List ℚ).length ∧ 4 = 2 * ([1, 2] : List ℚ).length ∧
      ([[1, 2], [1, 2], [1, 2], [1, 2]] : List (List ℚ)).length
        = 2 * ([1, 2] : List ℚ).length ∧
      (∀ row ∈ ([[1, 2], [1, 2], [1, 2], [1, 2]] : List (List ℚ)),
        row.length = ([1, 2] : List ℚ).length) ∧
      finiteOracle [[1, 2], [1, 2], [1, 2], [1, 2]] = false ∧
      ∃ k, ([[1, 2], [1, 2], [1, 2], [1, 2]] : List (List ℚ))
        = perturbPos [1, 2] [1/10, 1/10] (zeroDraws k) :=
  perturbate_success_contract [1, 2] [1/10, 1/10] 2 false finiteOracle zeroDraws 1 2 4
    [[1, 2], [1, 2], [1, 2], [1, 2]] rfl (by norm_num)
    (fun _ => ⟨rfl, by simp [zeroDraws]⟩)
    (by simp [perturbate_theta, perturbLoop, perturbPos, finiteOracle, zeroDraws])

/-- C9 counterexample: `bounds` given as the empty sequence with
`len(bounds) = 0 ≠ 1 = len(theta)` does not raise a validation error: the
check at line 185 is `if bounds and (len(bounds) != len(theta))`, and an empty
sequence is falsy in Python, so validation is skipped and the call returns a
position matrix. -/
theorem empty_bounds_skip_validation :
    perturbate_theta [1] [1] 2 (some []) false (fun _ => false)
      (fun _ => [[0], [0]]) 1 = some (.success 1 2 [[1], [1]]) := by
  simp [perturbate_theta, perturbLoop, perturbPos, clipList]

/-- C9 (amended): for every input where `len(theta) != len(pert)`, or where
`bounds` is given as a nonempty sequence with `len(bounds) != len(theta)`,
`perturbate_theta` raises a validation error immediately: the result is the
same for every condition-number oracle, every draw stream and every fuel
(including zero fuel, i.e. before any perturbation attempt or retry), so no
position matrix is produced. -/
theorem validation_error_immediate (theta pert : List ℚ) (multiplier : ℕ)
    (bounds : Option (List (ℚ × ℚ))) (verbose : Bool)
    (condInf : List (List ℚ) → Bool) (draws : ℕ → List (List ℚ)) (fuel : ℕ)
    (h : theta.length ≠ pert.length ∨
      ∃ bs, bounds = some bs ∧ bs ≠ [] ∧ bs.length ≠ theta.length) :
    ∃ msg, perturbate_theta theta pert multiplier bounds verbose condInf draws fuel
      = some (.validationError msg) := by
  rcases h with h | ⟨bs, rfl, hne, hblen⟩
  · exact ⟨"The parameter value array theta must have the same length as the perturbation value array pert.",
      by simp [perturbate_theta, h]⟩
  · by_cases hlp : theta.length ≠ pert.length
    · exact ⟨"The parameter value array theta must have the same length as the perturbation value array pert.",
        by simp [perturbate_theta, hlp]⟩
    · cases bs with
      | nil => exact absurd rfl hne
      | cons b bs' =>
        refine ⟨"If bounds is not None, it must contain a tuple for every parameter in theta", ?_⟩
        simp only [perturbate_theta, eq_false hlp, if_false, Option.getD]
        have hcond : ((!(b :: bs').isEmpty) && decide ((b :: bs').length ≠ theta.length))
            = true := by
          simp only [List.isEmpty_cons, Bool.not_false, Bool.true_and, decide_eq_true_eq]
          exact hblen
        rw [if_pos hcond]

/-- C9 witness for the amended claim: a concrete call with
`len(theta) = 1 ≠ 2 = len(pert)` yields a validation error with zero fuel. -/
theorem validation_error_immediate_witness :
    ∃ msg, perturbate_theta [1] [1, 2] 2 none false (fun _ => false)
      (fun _ => []) 0 = some (.validationError msg) :=
  validation_error_immediate [1] [1, 2] 2 none false (fun _ => false)
    (fun _ => []) 0 (Or.inl (by decide))

/-! Embedding of `emcee_sampler_to_dictionary` (lines 214-281).  The backend
chain accessor `sampler.get_chain(discard=..., thin=..., flat=True)` is
abstracted as `getChain discard thin`, returning the flat sample matrix
(retained rows × columns); `sampler.get_autocorr_time()` is abstracted as an
`Option (List ℚ)` that is `none` when the call raises (chain too short). -/

/-- One value of the samples dictionary: a parameter of shape `[1]` gets a
flat series (line 263), any other shape a list of per-component series
(lines 256-261). -/
inductive Entry where
  | flat (series : List ℚ)
  | nested (series : List (List ℚ))
deriving DecidableEq

/-- Column `j` of the flat sample matrix: `list(flat_samples[:, j])`
(totalised with 0 beyond a row's length; rows always have the full width in
reachable states). -/
def column (m : List (List ℚ)) (j : ℕ) : List ℚ := m.map fun row => row.getD j 0

/-- Lines 253-264: the loop over `settings['calibrated_parameters_shapes']`
building `samples_dict`, with the running column offset `count`. -/
def reassemble (m : List (List ℚ)) : List (String × List ℕ) → ℕ → List (String × Entry)
  | [], _ => []
  | (name, shape) :: rest, count =>
    if shape ≠ [1] then
      (name, .nested ((List.range shape.prod).map fun j => column m (count + j)))
        :: reassemble m rest (count + shape.prod)
    else
      (name, .flat (column m count)) :: reassemble m rest (count + 1)

/-- Line 240: Python `round` (banker's rounding, half to even) on an exact
rational. -/
def pyRound (q : ℚ) : ℤ :=
  if q - ⌊q⌋ < 1/2 then ⌊q⌋
  else if 1/2 < q - ⌊q⌋ then ⌊q⌋ + 1
  else if ⌊q⌋ % 2 = 0 then ⌊q⌋ else ⌊q⌋ + 1

/-- Lines 238-246: the thinning policy.  On a successful autocorrelation
estimate, `thin = max(1, round(0.5 * np.max(autocorr)))`; when
`get_autocorr_time` raises (`none`), the `except` branch sets `thin = 1` and
prints a warning (the Boolean component). -/
def computeThin : Option (List ℚ) → ℤ × Bool
  | some autocorr => (max 1 (pyRound (1/2 * maxQ autocorr)), false)
  | none => (1, true)

/-- Lines 214-269 of `emcee_sampler_to_dictionary`, restricted to its numeric
core: the caller-supplied `thin` parameter, the try/except thinning policy,
the chain read, and the construction of the samples dictionary.  The settings
entries other than `calibrated_parameters_shapes` (deleted at line 267 before
the merge at line 269) are carried through unchanged as the second component;
the third component flags that the autocorrelation warning was printed.
The `let thin := ...` shadowing the `thin` parameter mirrors the
unconditional reassignment of `thin` at lines 240/244. -/
def emceeSamplerToDictionary (discard : ℕ) (thin : ℤ)
    (autocorr : Option (List ℚ)) (getChain : ℕ → ℤ → List (List ℚ))
    (shapes : List (String × List ℕ)) (settings : List (String × String)) :
    List (String × Entry) × List (String × String) × Bool :=
  let tw := computeThin autocorr
  let thin := tw.1
  let flat_samples := getChain discard thin
  (reassemble flat_samples shapes 0, settings, tw.2)

/-- Spec-side reassembly, from the spec's words: walk the shape table in
order, keeping a running column offset; a shape `[1]` takes its single column
as a flat series, any other shape takes `product(shape)` consecutive columns
as an ordered list of per-component series; the offset always advances by
`product(shape)`. -/
def reassembleSpec (m : List (List ℚ)) :
    List (String × List ℕ) → ℕ → List (String × Entry)
  | [], _ => []
  | (name, shape) :: rest, offset =>
    (name,
      if shape = [1] then Entry.flat (column m offset)
      else Entry.nested ((List.range shape.prod).map fun j => column m (offset + j)))
      :: reassembleSpec m rest (offset + shape.prod)

/-- C5: the source reassembly loop computes exactly the spec's walk (for a
shape `[1]` the offset advance of 1 equals `product([1])`), every extracted
series has one value per retained row, and on the shape table
`{"a": [1], "b": [2]}` over a 3-column matrix the result is `a` from column 0
and `b` as the two series of columns 1 and 2, in that order. -/
theorem reassemble_matches_spec_walk (m : List (List ℚ))
    (shapes : List (String × List ℕ)) (count : ℕ) :
    reassemble m shapes count = reassembleSpec m shapes count
    ∧ (∀ j, (column m j).length = m.length)
    ∧ reassemble m [("a", [1]), ("b", [2])] 0 =
        [("a", Entry.flat (column m 0)), ("b", Entry.nested [column m 1, column m 2])] := by
  have hgen : ∀ (sh : List (String × List ℕ)) (c : ℕ),
      reassemble m sh c = reassembleSpec m sh c := by
    intro sh
    induction sh with
    | nil => intro c; rfl
    | cons p rest ih =>
      intro c
      obtain ⟨name, shape⟩ := p
      by_cases hs : shape = [1]
      · subst hs
        simp [reassemble, reassembleSpec, ih]
      · simp [reassemble, reassembleSpec, hs, ih]
  refine ⟨hgen shapes count, fun j => by simp [column], ?_⟩
  rw [hgen]
  simp only [reassembleSpec]
  norm_num [List.range_succ]

/-- C6: thinning on reassembly.  When the autocorrelation estimate succeeds,
the chain is read with `thin = max(1, round(0.5 * max(tau)))`; when the
estimate fails, reassembly still returns a dictionary, reads the chain with
`thin = 1`, and flags the warning — the failure is never fatal. -/
theorem thinning_success_and_fallback :
    (∀ (tau : List ℚ) (discard : ℕ) (t : ℤ) (getChain : ℕ → ℤ → List (List ℚ))
        (shapes : List (String × List ℕ)) (settings : List (String × String)),
      emceeSamplerToDictionary discard t (some tau) getChain shapes settings =
        (reassemble (getChain discard (max 1 (pyRound (1/2 * maxQ tau)))) shapes 0,
          settings, false))
    ∧ ∀ (discard : ℕ) (t : ℤ) (getChain : ℕ → ℤ → List (List ℚ))
        (shapes : List (String × List ℕ)) (settings : List (String × String)),
      emceeSamplerToDictionary discard t none getChain shapes settings =
        (reassemble (getChain discard 1) shapes 0, settings, true) :=
  ⟨fun _ _ _ _ _ _ => rfl, fun _ _ _ _ _ => rfl⟩

/-- C7: the caller-supplied `thin` argument never influences the output:
`thin` is unconditionally reassigned (lines 240/244) before the chain is read
at line 252, so two calls differing only in `thin` return the same samples
dictionary. -/
theorem caller_thin_noninterference (discard : ℕ) (t1 t2 : ℤ)
    (autocorr : Option (List ℚ)) (getChain : ℕ → ℤ → List (List ℚ))
    (shapes : List (String × List ℕ)) (settings : List (String × String)) :
    emceeSamplerToDictionary discard t1 autocorr getChain shapes settings =
      emceeSamplerToDictionary discard t2 autocorr getChain shapes settings := rfl

/-! Embedding of the settings-dictionary handling of `run_EnsembleSampler`
(lines 14-16 and 81).  Python evaluates a `def`'s default parameter values
once, when the `def` statement runs; every later call that omits the
parameter binds the very same object, and `dict.update` mutates it in place.
The module-level state is therefore the current contents of the default
dictionary (initially `{}` from line 16). -/

/-- Python `dict.update` with a single key: overwrite an existing binding in
place, else append the new key. -/
def dictUpdate {α : Type} (d : List (String × α)) (key : String) (v : α) :
    List (String × α) :=
  if d.any fun p => p.1 = key then
    d.map fun p => if p.1 = key then (key, v) else p
  else d ++ [(key, v)]

/-- Result of the settings-handling prefix of one `run_EnsembleSampler` call:
the dictionary object as observed when the call starts, its contents after
line 81's `update`, and the contents of the module-level default dictionary
after the call (mutated in place when the argument was omitted). -/
structure SettingsCallResult (α : Type) where
  observed : List (String × α)
  written : List (String × α)
  newDefault : List (String × α)
deriving DecidableEq

/-- Lines 16 and 81: one call's effect on the settings dictionary.  `dflt` is
the current contents of the shared default dictionary; `explicit` is the
caller's `settings_dict` argument (`none` = omitted); `shapes` is
`objective_function.parameter_shapes`, inserted under the key
`calibrated_parameters_shapes`. -/
def runSettingsPhase {α : Type} (dflt : List (String × α))
    (explicit : Option (List (String × α))) (shapes : α) : SettingsCallResult α :=
  let d := explicit.getD dflt
  let d2 := dictUpdate d "calibrated_parameters_shapes" shapes
  { observed := d
    written := d2
    newDefault := match explicit with | some _ => dflt | none => d2 }

/-- C2: the default settings dictionary is shared across calls.  Starting
from the module's initial state (`settings_dict={}` evaluated once at
definition time), a first call omitting the argument inserts
`calibrated_parameters_shapes` into the shared default; a second call
omitting the argument then observes that key (with the first call's value) in
its settings document instead of a fresh empty one — contradicting the claim
that no later call observes keys inserted by an earlier call. -/
theorem default_settings_shared_across_calls :
    (runSettingsPhase ([] : List (String × List (String × List ℕ))) none
      [("a", [1])]).observed = []
    ∧ (runSettingsPhase
        (runSettingsPhase ([] : List (String × List (String × List ℕ))) none
          [("a", [1])]).newDefault none [("b", [2])]).observed
      = [("calibrated_parameters_shapes", [("a", [1])])] := by
  constructor <;> rfl

end PySODM
